import Mathlib

/-!
Shallow embedding of fxlog (src/fxlog/fxlogger.py), a leveled, colorized
logging facility: the module-level registry globals, the color-aware
formatter, the logger emit decision, the shared rotating file sink, and
the log-directory maintenance operations, together with theorems checking
the specification claims against these definitions.

Modelling conventions:
- Python logging level numbers are Nat (DEBUG = 10 .. CRITICAL = 50).
- The module globals (_LOG_DIRECTORY, _CONFIGURED_LOGGERS,
  _SHARED_FILE_HANDLER, _DEFAULT_LEVEL) together with the logging
  manager dictionary of loggers become an explicit ModuleState record
  threaded through every operation.
- Handler objects are shared by reference in Python; here a heap
  (List Handler) lives in the state and loggers hold Nat indices into
  it, so mutation through one alias is seen through all others.
- Filesystem facts that the code queries (is_dir at call time, the
  directory listing, file mtimes, the current time) are explicit
  parameters of each operation.
- print output is returned as a list of warning strings.
-/

namespace Fxlog

/-- Level constants re-exported at the top of fxlogger.py from the logging module. -/
def CRITICAL : Nat := 50

def FATAL : Nat := CRITICAL

def ERROR : Nat := 40

def WARNING : Nat := 30

def WARN : Nat := WARNING

def INFO : Nat := 20

def DEBUG : Nat := 10

def NOTSET : Nat := 0

/-! ### colorama escape codes

The concrete ANSI sequences colorama exposes; fxlogger.py uses them both
directly (inside FXFormatter.format) and guarded by the color-support
probe (the module-level color constants). -/

def foreBLACK : String := "\x1b[30m"

def foreRED : String := "\x1b[31m"

def foreGREEN : String := "\x1b[32m"

def foreYELLOW : String := "\x1b[33m"

def foreBLUE : String := "\x1b[34m"

def foreMAGENTA : String := "\x1b[35m"

def foreCYAN : String := "\x1b[36m"

def foreWHITE : String := "\x1b[37m"

def styleBRIGHT : String := "\x1b[1m"

def styleDIM : String := "\x1b[2m"

def styleRESET : String := "\x1b[0m"

/-! ### Module-level color constants

Each is `colorama.X if _COLOR_SUPPORTED else ""`; the probe result
_COLOR_SUPPORTED is a parameter. -/

def BLACK (colorSupported : Bool) : String := if colorSupported then foreBLACK else ""

def BLUE (colorSupported : Bool) : String := if colorSupported then foreBLUE else ""

def CYAN (colorSupported : Bool) : String := if colorSupported then foreCYAN else ""

def GREEN (colorSupported : Bool) : String := if colorSupported then foreGREEN else ""

def MAGENTA (colorSupported : Bool) : String := if colorSupported then foreMAGENTA else ""

def RED (colorSupported : Bool) : String := if colorSupported then foreRED else ""

def WHITE (colorSupported : Bool) : String := if colorSupported then foreWHITE else ""

def YELLOW (colorSupported : Bool) : String := if colorSupported then foreYELLOW else ""

def BRIGHT (colorSupported : Bool) : String := if colorSupported then styleBRIGHT else ""

def DIM (colorSupported : Bool) : String := if colorSupported then styleDIM else ""

def RESET_ALL (colorSupported : Bool) : String := if colorSupported then styleRESET else ""

/-! ### Log records

A logging.LogRecord as far as FXFormatter.format consumes it. asctime is
the already-rendered creation time (datefmt percent-H:M:S) and message
the already-merged msg percent args, both carried as fields since their
production is outside the formatter. module_function is the attribute
format itself installs on the record. -/

structure LogRecord where
  name : String
  levelno : Nat
  levelname : String
  funcName : String
  lineno : Nat
  asctime : String
  message : String
  color : Option String := none
  module_function : Option String := none
deriving DecidableEq, Repr

/-- FXFormatter state after __init__: the two toggles (level_colors is a
fixed table, modelled as the function levelColorsGet below). -/
structure FXFormatter where
  enable_color : Bool
  enable_separator : Bool
deriving DecidableEq, Repr

/-- FXFormatter.__init__: stores the toggles, then disables color when the
terminal does not support it. -/
def mkFXFormatter (colorSupported enable_color enable_separator : Bool) : FXFormatter :=
  { enable_color := if enable_color then (if colorSupported then enable_color else false)
      else enable_color
    enable_separator := enable_separator }

/-- self.level_colors.get(record.levelno, colorama.Fore.WHITE). -/
def levelColorsGet (levelno : Nat) : String :=
  if levelno = DEBUG then foreCYAN
  else if levelno = INFO then foreGREEN
  else if levelno = WARNING then foreYELLOW
  else if levelno = ERROR then foreRED
  else if levelno = CRITICAL then foreMAGENTA
  else foreWHITE

/-- Right-aligned padding, the levelname:>8s format directive. -/
def padAlignRight (w : Nat) (s : String) : String :=
  if s.length < w then String.mk (List.replicate (w - s.length) ' ') ++ s else s

/-- One decimal digit as a character. -/
def digitChar (d : Nat) : Char := Char.ofNat (48 + d % 10)

/-- Decimal rendering of a natural number (str(record.lineno)). -/
def natChars (n : Nat) : List Char :=
  if _h : n < 10 then [digitChar n]
  else natChars (n / 10) ++ [digitChar n]
decreasing_by exact Nat.div_lt_self (by omega) (by omega)

def natToString (n : Nat) : String := String.mk (natChars n)

/-- Python truthiness of getattr(record, "color", None): None and the
empty string are falsy. -/
def truthy : Option String → Bool
  | none => false
  | some s => !s.isEmpty

/-- FXFormatter.format. Inputs: the formatter, the class-level
FXFormatter._loggers set (a list of names), the record. Outputs: the
formatted string, the updated _loggers set, and the updated record
(format assigns record.module_function before building the line). -/
def FXFormatter.format (f : FXFormatter) (loggers : List String) (record : LogRecord) :
    String × List String × LogRecord :=
  let loggers1 := if record.name ∈ loggers then loggers else record.name :: loggers
  let width_levelname : Nat := 8
  let mf := record.name ++ ":" ++ record.funcName
  let record1 := { record with module_function := some mf }
  let out :=
    if f.enable_color then
      let separator :=
        if f.enable_separator then
          styleDIM ++ String.mk (List.replicate 79 '-') ++ styleRESET ++ "\n"
        else ""
      let message_color := record.color
      let color_start :=
        if truthy message_color && f.enable_color then message_color.getD "" else ""
      let color_end :=
        if truthy message_color && f.enable_color then styleRESET else ""
      separator
        ++ styleDIM ++ record.asctime ++ " " ++ styleRESET
        ++ levelColorsGet record.levelno
        ++ padAlignRight width_levelname record.levelname ++ " "
        ++ styleRESET ++ styleDIM ++ " " ++ styleRESET
        ++ styleDIM ++ mf ++ ":" ++ natToString record.lineno ++ styleRESET ++ "\n"
        ++ "    " ++ color_start ++ record.message ++ color_end
    else
      let separator :=
        if f.enable_separator then String.mk (List.replicate 79 '-') ++ "\n" else ""
      separator
        ++ record.asctime ++ " "
        ++ padAlignRight width_levelname record.levelname ++ " "
        ++ mf ++ ":" ++ natToString record.lineno ++ "\n"
        ++ "    " ++ record.message
  (out, loggers1, record1)

/-! ### Handlers, loggers and the module state -/

inductive HandlerKind where
  | console
  | file
deriving DecidableEq, Repr

/-- A logging.Handler as fxlogger.py configures one: its kind, its level,
its formatter, and (for the shared file handler) the log root its path
was built from. -/
structure Handler where
  kind : HandlerKind
  level : Nat
  fmtr : FXFormatter
  directory : Option String := none
deriving DecidableEq, Repr

/-- A logging.Logger object as the module observes it: whether it is an
FXColorLogger instance, its level, its propagate flag, and its attached
handlers as references into the handler heap. -/
structure LoggerObj where
  isFXColor : Bool
  level : Nat
  propagate : Bool
  handlers : List Nat
deriving DecidableEq, Repr

/-- The module globals plus the logging manager state.
loggerDict models logging.Logger.manager.loggerDict (insertion-ordered);
heap holds the handler objects so that the shared file handler is one
object aliased by every logger that attached it; fxFormatterLoggers is
the class-level FXFormatter._loggers set. -/
structure ModuleState where
  colorSupported : Bool
  logDirectory : Option String := none
  configuredLoggers : List String := []
  sharedFileHandler : Option Nat := none
  defaultLevel : Option Nat := none
  heap : List Handler := []
  loggerDict : List (String × LoggerObj) := []
  fxFormatterLoggers : List String := []
deriving DecidableEq, Repr

/-- Fresh interpreter state right after module import. -/
def initState (colorSupported : Bool) : ModuleState := { colorSupported := colorSupported }

/-- Dictionary lookup in loggerDict. -/
def dictGet (d : List (String × LoggerObj)) (n : String) : Option LoggerObj :=
  (d.find? (fun q => q.1 = n)).map (·.2)

/-- Dictionary update preserving insertion order (append when absent). -/
def dictSet : List (String × LoggerObj) → String → LoggerObj → List (String × LoggerObj)
  | [], n, o => [(n, o)]
  | (m, p) :: rest, n, o =>
    if m = n then (n, o) :: rest else (m, p) :: dictSet rest n o

/-- Set add for the name sets. -/
def addName (n : String) (l : List String) : List String := if n ∈ l then l else l ++ [n]

/-- logging.getLogger under the currently installed logger class: returns
the existing instance when the name is present, otherwise creates a fresh
logger (level NOTSET, propagate on, no handlers) of the installed class
and registers it. -/
def getLoggerWith (isFX : Bool) (st : ModuleState) (n : String) : ModuleState × LoggerObj :=
  match dictGet st.loggerDict n with
  | some o => (st, o)
  | none =>
    let o : LoggerObj := { isFXColor := isFX, level := NOTSET, propagate := true, handlers := [] }
    ({ st with loggerDict := dictSet st.loggerDict n o }, o)

/-- Allocate a handler object on the heap, returning its reference. -/
def allocHandler (st : ModuleState) (h : Handler) : ModuleState × Nat :=
  ({ st with heap := st.heap ++ [h] }, st.heap.length)

/-- handler.setLevel through a heap reference. -/
def setHandlerLevel (heap : List Handler) (i : Nat) (level : Nat) : List Handler :=
  match heap.get? i with
  | some h => heap.set i { h with level := level }
  | none => heap

/-- for handler in logger.handlers: handler.setLevel(level). -/
def setHandlerLevels (heap : List Handler) (ids : List Nat) (level : Nat) : List Handler :=
  ids.foldl (fun acc i => setHandlerLevel acc i level) heap

/-- _create_shared_file_handler: a TimedRotatingFileHandler rooted under
_LOG_DIRECTORY/node/user, rotation at midnight keeping 30 copies, with a
no-color no-separator FXFormatter, level DEBUG. -/
def create_shared_file_handler (st : ModuleState) : Handler :=
  { kind := .file
    level := DEBUG
    fmtr := mkFXFormatter st.colorSupported false false
    directory := st.logDirectory }

/-- set_log_directory: a no-op when _LOG_DIRECTORY is already set;
otherwise stores the path and, when it exists as a directory at call
time, eagerly builds the shared file handler. isDir is the is_dir()
probe of the given path at call time. -/
def set_log_directory (st : ModuleState) (log_directory : String) (isDir : Bool) : ModuleState :=
  if st.logDirectory.isSome then st
  else
    let st1 := { st with logDirectory := some log_directory }
    if isDir then
      let (st2, i) := allocHandler st1 (create_shared_file_handler st1)
      { st2 with sharedFileHandler := some i }
    else st1

/-- Warning printed when save_to_file is requested with no directory set. -/
def warnDirUnset (logger_name : String) : String :=
  "Warning: Logger " ++ logger_name ++ " requested save_to_file=True "
    ++ "but log directory is not set. Logs will only output to console. "
    ++ "Call set_log_directory() to enable file logging."

/-- Warning printed when save_to_file is requested but the directory is missing. -/
def warnDirMissing (logger_name : String) (dir : String) : String :=
  "Warning: Logger " ++ logger_name ++ " requested save_to_file=True "
    ++ "but log directory does not exist: " ++ dir ++ ". "
    ++ "Logs will only output to console."

/-- logging.Logger.addHandler: appends the handler to logger.handlers
unless it is already present there (handler objects compare by
identity, here by heap reference). -/
def addHandlerRef (l : LoggerObj) (i : Nat) : LoggerObj :=
  if i ∈ l.handlers then l else { l with handlers := l.handlers ++ [i] }

/-- The construction tail of configure_logger, reached when no existing
FXColorLogger short-circuits the call: getLogger with the FXColorLogger
class installed, addHandler a fresh console handler, addHandler
(creating if absent) the shared file handler when permitted, disable
propagation, track the name, and apply the global default level to the
logger and all its handlers. -/
def configureAttach (st : ModuleState) (logger_name : String)
    (enable_color enable_separator can_save_to_file : Bool) : ModuleState × LoggerObj :=
  let fmtr := mkFXFormatter st.colorSupported enable_color enable_separator
  let (st1, logger0) := getLoggerWith true st logger_name
  let console : Handler := { kind := .console, level := DEBUG, fmtr := fmtr }
  let (st2, cid) := allocHandler st1 console
  let logger1 := addHandlerRef logger0 cid
  let (st3, logger2) :=
    if can_save_to_file then
      match st2.sharedFileHandler with
      | some fid => (st2, addHandlerRef logger1 fid)
      | none =>
        let (st', fid) := allocHandler st2 (create_shared_file_handler st2)
        ({ st' with sharedFileHandler := some fid }, addHandlerRef logger1 fid)
    else (st2, logger1)
  let logger3 := { logger2 with propagate := false }
  let st4 := { st3 with configuredLoggers := addName logger_name st3.configuredLoggers }
  let (st5, logger4) :=
    match st4.defaultLevel with
    | some L =>
      ({ st4 with heap := setHandlerLevels st4.heap logger3.handlers L },
        { logger3 with level := L })
    | none => (st4, logger3)
  ({ st5 with loggerDict := dictSet st5.loggerDict logger_name logger4 }, logger4)

/-- The value of can_save_to_file after the degraded-mode check at the top
of configure_logger. -/
def canSaveToFile (st : ModuleState) (dirExists save_to_file : Bool) : Bool :=
  if save_to_file then
    if st.logDirectory = none then false
    else if !dirExists then false
    else save_to_file
  else save_to_file

/-- The warnings the degraded-mode check at the top of configure_logger
prints to stdout. -/
def configureWarnings (st : ModuleState) (dirExists : Bool) (logger_name : String)
    (save_to_file : Bool) : List String :=
  if save_to_file then
    if st.logDirectory = none then [warnDirUnset logger_name]
    else if !dirExists then [warnDirMissing logger_name (st.logDirectory.getD "")]
    else []
  else []

/-- configure_logger. dirExists is the is_dir() probe of _LOG_DIRECTORY at
call time. Returns the new state, the returned logger, and the warnings
printed to stdout. -/
def configure_logger (st : ModuleState) (dirExists : Bool) (logger_name : String)
    (enable_color : Bool := true) (enable_separator : Bool := true)
    (save_to_file : Bool := true) : ModuleState × LoggerObj × List String :=
  let can_save_to_file := canSaveToFile st dirExists save_to_file
  let warnings := configureWarnings st dirExists logger_name save_to_file
  match dictGet st.loggerDict logger_name with
  | some existing =>
    if existing.isFXColor then (st, existing, warnings)
    else
      let (st1, lg) := configureAttach st logger_name enable_color enable_separator
        can_save_to_file
      (st1, lg, warnings)
  | none =>
    let (st1, lg) := configureAttach st logger_name enable_color enable_separator
      can_save_to_file
    (st1, lg, warnings)

/-- One iteration of the set_loggers_level loops: logging.getLogger(name),
setLevel on the logger and on each of its handlers. -/
def setLoggerLevelByName (st : ModuleState) (n : String) (level : Nat) : ModuleState :=
  let (st1, obj) := getLoggerWith false st n
  let obj1 := { obj with level := level }
  { st1 with heap := setHandlerLevels st1.heap obj1.handlers level
             loggerDict := dictSet st1.loggerDict n obj1 }

/-- set_loggers_level: store the global default, then update every tracked
logger and every one of its handlers, then any names tracked only by
FXFormatter._loggers. -/
def set_loggers_level (st : ModuleState) (level : Nat) : ModuleState :=
  let st1 := { st with defaultLevel := some level }
  let st2 := st1.configuredLoggers.foldl (fun s n => setLoggerLevelByName s n level) st1
  st2.fxFormatterLoggers.foldl
    (fun s n => if n ∈ s.configuredLoggers then s else setLoggerLevelByName s n level) st2

/-! ### FXColorLogger emit decision

The leveled methods consult logging.Logger.isEnabledFor, which walks the
logger and its ancestors for the first set level (root defaults to
WARNING in the stock manager, carried here as part of the ancestor
chain). A LevelView is the slice of logger state those methods read. -/

structure LevelView where
  level : Nat
  ancestorLevels : List Nat := [WARNING]
  disabled : Bool := false
  managerDisable : Nat := NOTSET
deriving DecidableEq, Repr

/-- getEffectiveLevel: first nonzero level walking up, else NOTSET. -/
def firstSetLevel : List Nat → Nat
  | [] => NOTSET
  | l :: rest => if l ≠ 0 then l else firstSetLevel rest

def getEffectiveLevel (v : LevelView) : Nat := firstSetLevel (v.level :: v.ancestorLevels)

/-- logging.Logger.isEnabledFor. -/
def isEnabledFor (v : LevelView) (level : Nat) : Bool :=
  if v.disabled then false
  else if level ≤ v.managerDisable then false
  else decide (getEffectiveLevel v ≤ level)

/-- logging.Logger.setLevel. -/
def LevelView.setLevel (v : LevelView) (level : Nat) : LevelView := { v with level := level }

/-- The caller information findCaller resolves for the record. -/
structure CallSite where
  fn : String
  func : String
  lno : Nat
deriving DecidableEq, Repr

/-- logging.getLevelName on the standard levels. -/
def getLevelName (level : Nat) : String :=
  if level = CRITICAL then "CRITICAL"
  else if level = ERROR then "ERROR"
  else if level = WARNING then "WARNING"
  else if level = INFO then "INFO"
  else if level = DEBUG then "DEBUG"
  else if level = NOTSET then "NOTSET"
  else "Level " ++ natToString level

/-- FXColorLogger._log: when the level is enabled, find the caller, make
the record, set record.color when the argument is truthy, and hand the
record to the handlers; otherwise nothing happens. The produced record
is the result (none = no record was constructed). name is the logger
name, asctime the render of the record creation time. -/
def FXColorLogger.log_ (v : LevelView) (name : String) (cs : CallSite) (asctime : String)
    (level : Nat) (msg : String) (color : Option String) : Option LogRecord :=
  if isEnabledFor v level then
    some { name := name
           levelno := level
           levelname := getLevelName level
           funcName := cs.func
           lineno := cs.lno
           asctime := asctime
           message := msg
           color := if truthy color then color else none }
  else none

/-- FXColorLogger.debug. -/
def FXColorLogger.debug (v : LevelView) (name : String) (cs : CallSite) (asctime : String)
    (msg : String) (color : Option String) : Option LogRecord :=
  if isEnabledFor v DEBUG then FXColorLogger.log_ v name cs asctime DEBUG msg color else none

/-- FXColorLogger.info. -/
def FXColorLogger.info (v : LevelView) (name : String) (cs : CallSite) (asctime : String)
    (msg : String) (color : Option String) : Option LogRecord :=
  if isEnabledFor v INFO then FXColorLogger.log_ v name cs asctime INFO msg color else none

/-- FXColorLogger.warning. -/
def FXColorLogger.warning (v : LevelView) (name : String) (cs : CallSite) (asctime : String)
    (msg : String) (color : Option String) : Option LogRecord :=
  if isEnabledFor v WARNING then FXColorLogger.log_ v name cs asctime WARNING msg color else none

/-- FXColorLogger.error. -/
def FXColorLogger.error (v : LevelView) (name : String) (cs : CallSite) (asctime : String)
    (msg : String) (color : Option String) : Option LogRecord :=
  if isEnabledFor v ERROR then FXColorLogger.log_ v name cs asctime ERROR msg color else none

/-- FXColorLogger.critical. -/
def FXColorLogger.critical (v : LevelView) (name : String) (cs : CallSite) (asctime : String)
    (msg : String) (color : Option String) : Option LogRecord :=
  if isEnabledFor v CRITICAL then FXColorLogger.log_ v name cs asctime CRITICAL msg color else none

/-! ### Log directory maintenance -/

/-- A directory entry of _LOG_DIRECTORY.iterdir(): its name, whether it is
a regular file, and its st_mtime in seconds. Subdirectory entries carry
isFile = false. -/
structure FileEntry where
  name : String
  isFile : Bool
  mtime : Int
deriving DecidableEq, Repr

/-- _check_log_directory: ValueError when unset or not a directory. -/
def check_log_directory (st : ModuleState) (dirExists : Bool) : Except String Unit :=
  match st.logDirectory with
  | none => .error "Log directory is not set. Call set_log_directory first."
  | some d => if dirExists then .ok () else .error ("Log directory does not exist: " ++ d ++ ".")

/-- The deletion loop of delete_old_logs: unlink every regular file whose
mtime is strictly before the cutoff; the survivors are returned. -/
def deleteOldLoop (cutoff : Int) : List FileEntry → List FileEntry
  | [] => []
  | f :: rest =>
    if f.isFile && decide (f.mtime < cutoff) then deleteOldLoop cutoff rest
    else f :: deleteOldLoop cutoff rest

/-- delete_old_logs(days): check the directory, compute
cutoff = now - timedelta(days), delete old regular files among the
top-level entries. dirExists and entries are the filesystem facts at
call time; now is datetime.now() in seconds. Returns the entries that
survive. -/
def delete_old_logs (st : ModuleState) (dirExists : Bool) (entries : List FileEntry)
    (now : Int) (days : Nat) : Except String (List FileEntry) :=
  match check_log_directory st dirExists with
  | .error e => .error e
  | .ok _ =>
    let cutoff_date : Int := now - 86400 * (days : Int)
    .ok (deleteOldLoop cutoff_date entries)

/-! ### Rotation filenames -/

/-- Index of the last occurrence of a character. -/
def lastIdxOf (c : Char) : List Char → Option Nat
  | [] => none
  | x :: xs =>
    match lastIdxOf c xs with
    | some i => some (i + 1)
    | none => if x = c then some 0 else none

/-- os.path.splitext (the generic implementation, sep = slash): split off
the extension at the last dot, provided that dot lies in the final path
component and some non-dot character precedes it there. -/
def splitext (p : List Char) : List Char × List Char :=
  let filenameIndex := match lastIdxOf '/' p with
    | some s => s + 1
    | none => 0
  match lastIdxOf '.' p with
  | none => (p, [])
  | some dotIndex =>
    if filenameIndex ≤ dotIndex then
      if ((p.drop filenameIndex).take (dotIndex - filenameIndex)).any (fun c => c ≠ '.') then
        (p.take dotIndex, p.drop dotIndex)
      else (p, [])
    else (p, [])

/-- FXTimedRotatingFileHandler.rotation_filename: split default_name into
name and extension, and rebuild as name then a dot then the suffix then
the extension. -/
def rotation_filename (suffix : List Char) (default_name : List Char) : List Char :=
  let ne := splitext default_name
  ne.1 ++ '.' :: (suffix ++ ne.2)

/-! ### Observations used by the claims -/

/-- Number of console handlers among a list of handler references. -/
def countConsole (heap : List Handler) (ids : List Nat) : Nat :=
  (ids.filter (fun i => (heap.get? i).map Handler.kind = some HandlerKind.console)).length

/-- The ANSI escape character. -/
def escChar : Char := Char.ofNat 27

/-- A string free of ANSI escape sequences: it contains no escape
character at all. -/
def noEsc (s : String) : Prop := escChar ∉ s.data

instance (s : String) : Decidable (noEsc s) := by unfold noEsc; infer_instance

/-! ### Helper lemmas on the dictionary and the handler heap -/

theorem dictGet_dictSet_self (d : List (String × LoggerObj)) (n : String) (o : LoggerObj) :
    dictGet (dictSet d n o) n = some o := by
  induction d with
  | nil => simp [dictGet, dictSet]
  | cons p rest ih =>
    obtain ⟨m, q⟩ := p
    by_cases h : m = n
    · subst h; simp [dictSet, dictGet]
    · simp [dictSet, h, dictGet] at ih ⊢
      exact ih

theorem dictGet_dictSet_ne (d : List (String × LoggerObj)) (m n : String) (o : LoggerObj)
    (h : m ≠ n) : dictGet (dictSet d m o) n = dictGet d n := by
  induction d with
  | nil => simp [dictGet, dictSet, h]
  | cons p rest ih =>
    obtain ⟨k, q⟩ := p
    by_cases hk : k = m
    · subst hk; simp [dictSet, dictGet, h]
    · simp [dictSet, hk, dictGet] at ih ⊢
      by_cases hn : k = n
      · simp [hn]
      · simp [hn]
        exact ih

theorem setHandlerLevel_length (heap : List Handler) (i L : Nat) :
    (setHandlerLevel heap i L).length = heap.length := by
  unfold setHandlerLevel
  cases h : heap.get? i <;> simp

theorem setHandlerLevels_length (ids : List Nat) (heap : List Handler) (L : Nat) :
    (setHandlerLevels heap ids L).length = heap.length := by
  induction ids generalizing heap with
  | nil => rfl
  | cons j rest ih => simp [setHandlerLevels] at ih ⊢; rw [ih, setHandlerLevel_length]

theorem setHandlerLevel_get_self (heap : List Handler) (i L : Nat) :
    (setHandlerLevel heap i L).get? i = (heap.get? i).map (fun x => { x with level := L }) := by
  unfold setHandlerLevel
  cases h : heap.get? i with
  | none =>
    simp [h]
    exact List.get?_eq_none.mp h
  | some x =>
    obtain ⟨hi, _⟩ := List.get?_eq_some.mp h
    simp [h, List.getElem?_set_self', List.get?_eq_getElem?]
    exact ⟨x, by rw [← List.get?_eq_getElem?]; exact h⟩

theorem setHandlerLevel_get_ne (heap : List Handler) (i j L : Nat) (h : i ≠ j) :
    (setHandlerLevel heap i L).get? j = heap.get? j := by
  unfold setHandlerLevel
  cases hx : heap.get? i with
  | none => rfl
  | some x => simp [List.get?_eq_getElem?, List.getElem?_set_ne h]

theorem setHandlerLevels_cons (heap : List Handler) (i L : Nat) (rest : List Nat) :
    setHandlerLevels heap (i :: rest) L = setHandlerLevels (setHandlerLevel heap i L) rest L :=
  rfl

theorem setHandlerLevels_get_not_mem (ids : List Nat) (heap : List Handler) (L j : Nat)
    (h : j ∉ ids) : (setHandlerLevels heap ids L).get? j = heap.get? j := by
  induction ids generalizing heap with
  | nil => rfl
  | cons i rest ih =>
    simp only [List.mem_cons, not_or] at h
    rw [setHandlerLevels_cons, ih _ h.2,
      setHandlerLevel_get_ne _ _ _ _ (fun hij => h.1 hij.symm)]

theorem setHandlerLevels_get_mem (ids : List Nat) (heap : List Handler) (L j : Nat)
    (h : j ∈ ids) :
    (setHandlerLevels heap ids L).get? j = (heap.get? j).map (fun x => { x with level := L }) := by
  induction ids generalizing heap with
  | nil => cases h
  | cons i rest ih =>
    rw [setHandlerLevels_cons]
    by_cases hj : j ∈ rest
    · rw [ih _ hj]
      by_cases hij : i = j
      · subst hij
        rw [setHandlerLevel_get_self]
        cases heap.get? i <;> rfl
      · rw [setHandlerLevel_get_ne _ _ _ _ hij]
    · have hij : i = j := by
        rcases List.mem_cons.mp h with h1 | h1
        · exact h1.symm
        · exact absurd h1 hj
      subst hij
      rw [setHandlerLevels_get_not_mem _ _ _ _ hj, setHandlerLevel_get_self]

/-- setHandlerLevels only rewrites levels: kind, formatter and directory
of every heap slot are untouched. -/
theorem setHandlerLevels_get (ids : List Nat) (heap : List Handler) (L j : Nat) :
    (setHandlerLevels heap ids L).get? j = (heap.get? j).map
      (fun x => if j ∈ ids then { x with level := L } else x) := by
  by_cases h : j ∈ ids
  · rw [setHandlerLevels_get_mem _ _ _ _ h]
    simp [h]
  · rw [setHandlerLevels_get_not_mem _ _ _ _ h]
    simp only [h, if_false]
    cases heap.get? j <;> rfl

/-- configureAttach on a name absent from the dictionary returns an
FXColorLogger instance and stores exactly the returned object under that
name. -/
theorem configureAttach_fresh (st : ModuleState) (n : String) (ec es cs : Bool)
    (hfresh : dictGet st.loggerDict n = none) :
    (configureAttach st n ec es cs).2.isFXColor = true ∧
    dictGet (configureAttach st n ec es cs).1.loggerDict n =
      some (configureAttach st n ec es cs).2 := by
  unfold configureAttach getLoggerWith allocHandler addHandlerRef
  rw [hfresh]
  dsimp only
  split <;> (try split) <;> (try split) <;> (try split) <;> (try split) <;>
    simp [dictGet_dictSet_self]

/-- C1: for a logger name first created by configure_logger (the name is
not yet in the logger dictionary), calling configure_logger a second time
with that same name returns the identical logger instance the first call
returned and leaves the module state unchanged, whatever construction
options (enable_color, enable_separator, save_to_file) the repeat call
passes. -/
theorem configure_logger_repeat_returns_same
    (st : ModuleState) (d1 d2 : Bool) (n : String) (c1 s1 f1 c2 s2 f2 : Bool)
    (hfresh : dictGet st.loggerDict n = none) :
    (configure_logger (configure_logger st d1 n c1 s1 f1).1 d2 n c2 s2 f2).1 =
      (configure_logger st d1 n c1 s1 f1).1 ∧
    (configure_logger (configure_logger st d1 n c1 s1 f1).1 d2 n c2 s2 f2).2.1 =
      (configure_logger st d1 n c1 s1 f1).2.1 := by
  have h1 : configure_logger st d1 n c1 s1 f1 =
      ((configureAttach st n c1 s1 (canSaveToFile st d1 f1)).1,
       (configureAttach st n c1 s1 (canSaveToFile st d1 f1)).2,
       configureWarnings st d1 n f1) := by
    unfold configure_logger
    rw [hfresh]
  obtain ⟨hfx, hstore⟩ := configureAttach_fresh st n c1 s1 (canSaveToFile st d1 f1) hfresh
  rw [h1]
  dsimp only
  unfold configure_logger
  rw [hstore]
  simp [hfx]

/-- C1 witness: a concrete trace through the theorem. -/
theorem configure_logger_repeat_returns_same_witness :
    dictGet (initState false).loggerDict "app" = none ∧
    ((configure_logger (configure_logger (initState false) true "app" true true false).1
        false "app" false false true).1 =
      (configure_logger (initState false) true "app" true true false).1 ∧
     (configure_logger (configure_logger (initState false) true "app" true true false).1
        false "app" false false true).2.1 =
      (configure_logger (initState false) true "app" true true false).2.1) :=
  ⟨rfl, configure_logger_repeat_returns_same (initState false) true false "app"
    true true false false false true rfl⟩

/-- C2: set_log_directory first write wins: starting from a state with no
directory set (hence no shared file handler yet), the first call stores
its path; a second call with any path is a no-op that does not change the
state; and shared file sink creation out of the resulting state — the
eager one the first call may have performed, and any later lazy one —
builds from the first value. -/
theorem set_log_directory_first_write_wins
    (st : ModuleState) (p1 p2 : String) (d1 d2 : Bool)
    (hdir : st.logDirectory = none) (hsh : st.sharedFileHandler = none) :
    (set_log_directory (set_log_directory st p1 d1) p2 d2 =
      set_log_directory st p1 d1) ∧
    (set_log_directory st p1 d1).logDirectory = some p1 ∧
    (create_shared_file_handler (set_log_directory st p1 d1)).directory = some p1 ∧
    (∀ i, (set_log_directory st p1 d1).sharedFileHandler = some i →
      ((set_log_directory st p1 d1).heap.get? i).map Handler.directory = some (some p1)) := by
  unfold set_log_directory allocHandler create_shared_file_handler
  rw [hdir]
  cases d1 <;> simp [hsh, List.get?_concat_length]

/-- C2 witness: a concrete trace through the theorem. -/
theorem set_log_directory_first_write_wins_witness :
    (initState false).logDirectory = none ∧
    (initState false).sharedFileHandler = none ∧
    ((set_log_directory (set_log_directory (initState false) "logs" true) "other" true =
        set_log_directory (initState false) "logs" true) ∧
     (set_log_directory (initState false) "logs" true).logDirectory = some "logs" ∧
     (create_shared_file_handler (set_log_directory (initState false) "logs" true)).directory =
        some "logs" ∧
     (∀ i, (set_log_directory (initState false) "logs" true).sharedFileHandler = some i →
       ((set_log_directory (initState false) "logs" true).heap.get? i).map Handler.directory =
         some (some "logs"))) :=
  ⟨rfl, rfl, set_log_directory_first_write_wins (initState false) "logs" "other"
    true true rfl rfl⟩

theorem addHandlerRef_not_mem (l : LoggerObj) (i : Nat) (h : i ∉ l.handlers) :
    addHandlerRef l i = { l with handlers := l.handlers ++ [i] } := by
  unfold addHandlerRef
  rw [if_neg h]

theorem addHandlerRef_mem (l : LoggerObj) (i : Nat) (h : i ∈ l.handlers) :
    addHandlerRef l i = l := by
  unfold addHandlerRef
  rw [if_pos h]

/-- C5: configure_logger with save_to_file = true while the log directory
is unset or does not exist, on a fresh name: the call completes (it is a
total function, nothing is raised), prints exactly one warning, creates
the logger with exactly one attached handler which is a console handler —
so no file handler — and registers it under the name. -/
theorem configure_logger_degraded_console_only
    (st : ModuleState) (dirExists : Bool) (n : String) (ec es : Bool)
    (hfresh : dictGet st.loggerDict n = none)
    (hdeg : st.logDirectory = none ∨ dirExists = false) :
    (configure_logger st dirExists n ec es true).2.2.length = 1 ∧
    (configure_logger st dirExists n ec es true).2.1.handlers = [st.heap.length] ∧
    (((configure_logger st dirExists n ec es true).1.heap.get? st.heap.length).map
        Handler.kind = some HandlerKind.console) ∧
    dictGet (configure_logger st dirExists n ec es true).1.loggerDict n =
      some (configure_logger st dirExists n ec es true).2.1 := by
  have hcan : canSaveToFile st dirExists true = false := by
    unfold canSaveToFile
    rcases hdeg with h | h
    · simp [h]
    · subst h
      cases hd : st.logDirectory <;> simp
  have hwarn : (configureWarnings st dirExists n true).length = 1 := by
    unfold configureWarnings
    rcases hdeg with h | h
    · simp [h]
    · subst h
      cases hd : st.logDirectory <;> simp
  have h1 : configure_logger st dirExists n ec es true =
      ((configureAttach st n ec es false).1, (configureAttach st n ec es false).2,
       configureWarnings st dirExists n true) := by
    unfold configure_logger
    rw [hcan, hfresh]
  rw [h1]
  refine ⟨hwarn, ?_⟩
  unfold configureAttach getLoggerWith allocHandler
  rw [hfresh]
  dsimp only
  simp only [Bool.false_eq_true, if_false]
  rw [addHandlerRef_not_mem _ _ (List.not_mem_nil _)]
  dsimp only
  simp only [List.nil_append]
  split
  · refine ⟨by simp, ?_, by simp [dictGet_dictSet_self]⟩
    rw [setHandlerLevels_get_mem _ _ _ _ (List.mem_singleton.mpr rfl),
      List.get?_concat_length]
    rfl
  · refine ⟨by simp, ?_, by simp [dictGet_dictSet_self]⟩
    rw [List.get?_concat_length]
    rfl

/-- C5 witness: a concrete degraded-mode creation (no directory set). -/
theorem configure_logger_degraded_console_only_witness :
    dictGet (initState false).loggerDict "app" = none ∧
    ((initState false).logDirectory = none ∨ (true : Bool) = false) ∧
    ((configure_logger (initState false) true "app" true true true).2.2.length = 1 ∧
     (configure_logger (initState false) true "app" true true true).2.1.handlers =
       [(initState false).heap.length] ∧
     (((configure_logger (initState false) true "app" true true true).1.heap.get?
         (initState false).heap.length).map Handler.kind = some HandlerKind.console) ∧
     dictGet (configure_logger (initState false) true "app" true true true).1.loggerDict
         "app" =
       some (configure_logger (initState false) true "app" true true true).2.1) :=
  ⟨rfl, Or.inl rfl, configure_logger_degraded_console_only (initState false) true "app"
    true true rfl (Or.inl rfl)⟩

/-- C7 counterexample: FXFormatter.format is not free of side effects. On
a concrete record it adds the logger name to the class-level
FXFormatter._loggers set and rewrites the record (module_function is
assigned), refuting that it leaves the record and all other state
unchanged. -/
theorem format_not_side_effect_free :
    (FXFormatter.format { enable_color := false, enable_separator := false } []
        { name := "app", levelno := 20, levelname := "INFO", funcName := "main",
          lineno := 1, asctime := "00:00:00", message := "m" }).2.1 ≠ ([] : List String) ∧
    (FXFormatter.format { enable_color := false, enable_separator := false } []
        { name := "app", levelno := 20, levelname := "INFO", funcName := "main",
          lineno := 1, asctime := "00:00:00", message := "m" }).2.2 ≠
      { name := "app", levelno := 20, levelname := "INFO", funcName := "main",
        lineno := 1, asctime := "00:00:00", message := "m" } := by
  constructor <;> decide

/-- C7 amended: the output string of FXFormatter.format is a pure function
of the record, the formatter configuration and the palette — in
particular it does not depend on the mutable class-level _loggers set —
but the call is not side-effect free: it adds record.name to the
class-level FXFormatter._loggers set (when absent) and assigns the
module_function attribute on the record; these are its only effects. -/
theorem format_output_pure_effects_exact (f : FXFormatter) (s t : List String)
    (r : LogRecord) :
    (FXFormatter.format f s r).1 = (FXFormatter.format f t r).1 ∧
    (FXFormatter.format f s r).2.2 =
      { r with module_function := some (r.name ++ ":" ++ r.funcName) } ∧
    (FXFormatter.format f s r).2.1 = (if r.name ∈ s then s else r.name :: s) :=
  ⟨rfl, rfl, rfl⟩

/-- setHandlerLevels rewrites levels only, so the kind seen through any
reference is unchanged. -/
theorem setHandlerLevels_kind (ids : List Nat) (heap : List Handler) (L j : Nat) :
    ((setHandlerLevels heap ids L).get? j).map Handler.kind =
      (heap.get? j).map Handler.kind := by
  rw [setHandlerLevels_get]
  cases heap.get? j with
  | none => rfl
  | some x => by_cases h : j ∈ ids <;> simp [h]

theorem countConsole_congr (heap1 heap2 : List Handler) (ids : List Nat)
    (h : ∀ i ∈ ids, (heap2.get? i).map Handler.kind = (heap1.get? i).map Handler.kind) :
    countConsole heap2 ids = countConsole heap1 ids := by
  unfold countConsole
  congr 1
  apply List.filter_congr
  intro i hi
  simp only [h i hi]

theorem countConsole_append (heap : List Handler) (ids1 ids2 : List Nat) :
    countConsole heap (ids1 ++ ids2) = countConsole heap ids1 + countConsole heap ids2 := by
  unfold countConsole
  rw [List.filter_append, List.length_append]

theorem countConsole_singleton (heap : List Handler) (i : Nat) :
    countConsole heap [i] =
      if (heap.get? i).map Handler.kind = some HandlerKind.console then 1 else 0 := by
  unfold countConsole
  by_cases h : (heap.get? i).map Handler.kind = some HandlerKind.console
  · rw [if_pos h, List.filter_cons, if_pos (by simpa using h)]
    rfl
  · rw [if_neg h, List.filter_cons, if_neg (by simpa using h)]
    rfl

theorem countConsole_extend (heap ext : List Handler) (ids : List Nat)
    (h : ∀ i ∈ ids, i < heap.length) :
    countConsole (heap ++ ext) ids = countConsole heap ids :=
  countConsole_congr _ _ _ (fun i hi => by rw [List.get?_append (h i hi)])

theorem countConsole_setHandlerLevels (heap : List Handler) (ids1 ids2 : List Nat) (L : Nat) :
    countConsole (setHandlerLevels heap ids1 L) ids2 = countConsole heap ids2 :=
  countConsole_congr _ _ _ (fun _ _ => setHandlerLevels_kind _ _ _ _)

theorem countConsole_concat (heap : List Handler) (h : Handler) (ids : List Nat)
    (hwf : ∀ i ∈ ids, i < heap.length) :
    countConsole (heap ++ [h]) (ids ++ [heap.length]) =
      countConsole heap ids + (if h.kind = HandlerKind.console then 1 else 0) := by
  rw [countConsole_append, countConsole_extend _ _ _ hwf, countConsole_singleton,
    List.get?_concat_length]
  by_cases hk : h.kind = HandlerKind.console <;> simp [hk]

theorem countConsole_append_nonconsole (heap : List Handler) (ids : List Nat) (fid : Nat)
    (hk : (heap.get? fid).map Handler.kind = some HandlerKind.file) :
    countConsole heap (ids ++ [fid]) = countConsole heap ids := by
  rw [countConsole_append, countConsole_singleton, hk]
  simp

/-- C10: configure_logger on a name already bound to a logger that is not
an FXColorLogger does not return it unchanged: it attaches a fresh
console handler to that same instance and, when file output is
permitted, addHandler is invoked with the shared file handler — which
appends it when absent and is a no-op when that logger already holds it
(logging.Logger.addHandler skips handlers already present); the result
is stored back, returned, still not an FXColorLogger, and its console
handler count grew by exactly one — so each repeat call on such a name
accumulates one more console handler. -/
theorem configure_logger_nonfx_accumulates
    (st : ModuleState) (dirExists : Bool) (n : String) (ec es sf : Bool) (o : LoggerObj)
    (hex : dictGet st.loggerDict n = some o) (hnfx : o.isFXColor = false)
    (hwf : ∀ i ∈ o.handlers, i < st.heap.length)
    (hshwf : ∀ fid, st.sharedFileHandler = some fid →
      (st.heap.get? fid).map Handler.kind = some HandlerKind.file) :
    dictGet (configure_logger st dirExists n ec es sf).1.loggerDict n =
      some (configure_logger st dirExists n ec es sf).2.1 ∧
    (configure_logger st dirExists n ec es sf).2.1.isFXColor = false ∧
    (canSaveToFile st dirExists sf = false →
      (configure_logger st dirExists n ec es sf).2.1.handlers =
        o.handlers ++ [st.heap.length]) ∧
    (canSaveToFile st dirExists sf = true →
      ∃ fid, (((configure_logger st dirExists n ec es sf).1.heap.get? fid).map
            Handler.kind = some HandlerKind.file) ∧
        ((fid ∈ o.handlers ∧
            (configure_logger st dirExists n ec es sf).2.1.handlers =
              o.handlers ++ [st.heap.length]) ∨
         (fid ∉ o.handlers ∧
            (configure_logger st dirExists n ec es sf).2.1.handlers =
              o.handlers ++ [st.heap.length, fid]))) ∧
    (((configure_logger st dirExists n ec es sf).1.heap.get? st.heap.length).map
        Handler.kind = some HandlerKind.console) ∧
    countConsole (configure_logger st dirExists n ec es sf).1.heap
        (configure_logger st dirExists n ec es sf).2.1.handlers =
      countConsole st.heap o.handlers + 1 := by
  have hcid : st.heap.length ∉ o.handlers := fun h => absurd (hwf _ h) (lt_irrefl _)
  have h1 : configure_logger st dirExists n ec es sf =
      ((configureAttach st n ec es (canSaveToFile st dirExists sf)).1,
       (configureAttach st n ec es (canSaveToFile st dirExists sf)).2,
       configureWarnings st dirExists n sf) := by
    unfold configure_logger
    rw [hex]
    dsimp only
    rw [hnfx]
    simp only [Bool.false_eq_true, if_false]
  rw [h1]
  dsimp only
  generalize hcs : canSaveToFile st dirExists sf = cs
  unfold configureAttach getLoggerWith allocHandler
  rw [hex]
  dsimp only
  rw [addHandlerRef_not_mem _ _ hcid]
  cases cs with
  | false =>
    simp only [Bool.false_eq_true, if_false]
    cases hdl : st.defaultLevel with
    | none =>
      refine ⟨dictGet_dictSet_self _ _ _, hnfx, fun _ => rfl,
        fun h => absurd h (by simp), ?_, ?_⟩
      · rw [List.get?_concat_length]
        rfl
      · rw [countConsole_concat _ _ _ hwf]
        rfl
    | some L =>
      refine ⟨dictGet_dictSet_self _ _ _, hnfx, fun _ => rfl,
        fun h => absurd h (by simp), ?_, ?_⟩
      · rw [setHandlerLevels_kind, List.get?_concat_length]
        rfl
      · rw [countConsole_setHandlerLevels, countConsole_concat _ _ _ hwf]
        rfl
  | true =>
    rw [if_pos rfl]
    cases hsh : st.sharedFileHandler with
    | some fid =>
      dsimp only
      have hfk := hshwf fid hsh
      have hflt : fid < st.heap.length := by
        rcases Option.map_eq_some'.mp hfk with ⟨a, ha, _⟩
        exact (List.get?_eq_some.mp ha).1
      have hfk2 : ∀ c : Handler, ((st.heap ++ [c]).get? fid).map Handler.kind =
          some HandlerKind.file := by
        intro c
        rw [List.get?_append hflt]
        exact hfk
      by_cases hmem : fid ∈ o.handlers
      · -- the shared handler is already attached: addHandler is a no-op
        rw [addHandlerRef_mem _ _ (List.mem_append_left _ hmem)]
        cases hdl : st.defaultLevel with
        | none =>
          refine ⟨dictGet_dictSet_self _ _ _, hnfx, fun h => absurd h (by simp),
            fun _ => ⟨fid, ?_, Or.inl ⟨hmem, rfl⟩⟩, ?_, ?_⟩
          · exact hfk2 _
          · rw [List.get?_concat_length]
            rfl
          · rw [countConsole_concat _ _ _ hwf]
            rfl
        | some L =>
          refine ⟨dictGet_dictSet_self _ _ _, hnfx, fun h => absurd h (by simp),
            fun _ => ⟨fid, ?_, Or.inl ⟨hmem, rfl⟩⟩, ?_, ?_⟩
          · rw [setHandlerLevels_kind]
            exact hfk2 _
          · rw [setHandlerLevels_kind, List.get?_concat_length]
            rfl
          · rw [countConsole_setHandlerLevels, countConsole_concat _ _ _ hwf]
            rfl
      · -- not yet attached: addHandler appends it
        have hnm : fid ∉ o.handlers ++ [st.heap.length] := by
          intro h
          rcases List.mem_append.mp h with h | h
          · exact hmem h
          · simp only [List.mem_singleton] at h
            exact absurd hflt (h ▸ lt_irrefl _)
        rw [addHandlerRef_not_mem _ _ hnm]
        cases hdl : st.defaultLevel with
        | none =>
          refine ⟨dictGet_dictSet_self _ _ _, hnfx, fun h => absurd h (by simp),
            fun _ => ⟨fid, ?_, Or.inr ⟨hmem, by simp⟩⟩, ?_, ?_⟩
          · exact hfk2 _
          · rw [List.get?_concat_length]
            rfl
          · rw [countConsole_append_nonconsole _ _ _ (hfk2 _),
              countConsole_concat _ _ _ hwf]
            rfl
        | some L =>
          refine ⟨dictGet_dictSet_self _ _ _, hnfx, fun h => absurd h (by simp),
            fun _ => ⟨fid, ?_, Or.inr ⟨hmem, by simp⟩⟩, ?_, ?_⟩
          · rw [setHandlerLevels_kind]
            exact hfk2 _
          · rw [setHandlerLevels_kind, List.get?_concat_length]
            rfl
          · rw [countConsole_setHandlerLevels,
              countConsole_append_nonconsole _ _ _ (hfk2 _),
              countConsole_concat _ _ _ hwf]
            rfl
    | none =>
      dsimp only
      have hwf2 : ∀ c : Handler, ∀ i ∈ o.handlers ++ [st.heap.length],
          i < (st.heap ++ [c]).length := by
        intro c i hi
        rcases List.mem_append.mp hi with h | h
        · calc i < st.heap.length := hwf i h
            _ ≤ (st.heap ++ [c]).length := by simp
        · simp only [List.mem_singleton] at h
          subst h
          simp
      have hnm : ∀ c : Handler,
          (st.heap ++ [c]).length ∉ o.handlers ++ [st.heap.length] := by
        intro c h
        rcases List.mem_append.mp h with h | h
        · exact absurd (hwf _ h) (Nat.not_lt.mpr (by simp))
        · simp only [List.mem_singleton] at h
          simp at h
      have hfnm : ∀ c : Handler, (st.heap ++ [c]).length ∉ o.handlers :=
        fun c h => absurd (hwf _ h) (Nat.not_lt.mpr (by simp))
      rw [addHandlerRef_not_mem _ _ (hnm _)]
      cases hdl : st.defaultLevel with
      | none =>
        dsimp only
        refine ⟨dictGet_dictSet_self _ _ _, hnfx, fun h => absurd h (by simp),
          fun _ => ⟨(st.heap ++
            [({ kind := HandlerKind.console, level := DEBUG,
                fmtr := mkFXFormatter st.colorSupported ec es,
                directory := none } : Handler)]).length, ?_, Or.inr ⟨hfnm _, by simp⟩⟩,
          ?_, ?_⟩
        · rw [List.get?_concat_length]
          simp [create_shared_file_handler]
        · rw [List.get?_append (by simp), List.get?_concat_length]
          rfl
        · rw [countConsole_concat _ _ _ (hwf2 _), countConsole_concat _ _ _ hwf]
          simp [create_shared_file_handler]
      | some L =>
        dsimp only
        refine ⟨dictGet_dictSet_self _ _ _, hnfx, fun h => absurd h (by simp),
          fun _ => ⟨(st.heap ++
            [({ kind := HandlerKind.console, level := DEBUG,
                fmtr := mkFXFormatter st.colorSupported ec es,
                directory := none } : Handler)]).length, ?_, Or.inr ⟨hfnm _, by simp⟩⟩,
          ?_, ?_⟩
        · rw [setHandlerLevels_kind, List.get?_concat_length]
          simp [create_shared_file_handler]
        · rw [setHandlerLevels_kind, List.get?_append (by simp), List.get?_concat_length]
          rfl
        · rw [countConsole_setHandlerLevels, countConsole_concat _ _ _ (hwf2 _),
            countConsole_concat _ _ _ hwf]
          simp [create_shared_file_handler]

/-- C10 witness: a state holding a plain (non-FXColorLogger) logger named
ext; one configure_logger call on it adds one console handler. -/
theorem configure_logger_nonfx_accumulates_witness :
    dictGet ({ initState false with loggerDict :=
        [("ext", { isFXColor := false, level := 0, propagate := true, handlers := [] })]
      } : ModuleState).loggerDict "ext" =
      some { isFXColor := false, level := 0, propagate := true, handlers := [] } ∧
    countConsole (configure_logger { initState false with loggerDict :=
        [("ext", { isFXColor := false, level := 0, propagate := true, handlers := [] })] }
        true "ext" true true false).1.heap
      (configure_logger { initState false with loggerDict :=
        [("ext", { isFXColor := false, level := 0, propagate := true, handlers := [] })] }
        true "ext" true true false).2.1.handlers =
      countConsole ({ initState false with loggerDict :=
        [("ext", { isFXColor := false, level := 0, propagate := true, handlers := [] })]
      } : ModuleState).heap
        ({ isFXColor := false, level := 0, propagate := true,
           handlers := [] } : LoggerObj).handlers + 1 :=
  ⟨rfl, (configure_logger_nonfx_accumulates
    { initState false with loggerDict :=
      [("ext", { isFXColor := false, level := 0, propagate := true, handlers := [] })] }
    true "ext" true true false
    { isFXColor := false, level := 0, propagate := true, handlers := [] }
    rfl rfl (by simp) (by intro fid h; simp [initState] at h)).2.2.2.2.2⟩

/-! ### Behaviour of the set_loggers_level loops -/

theorem setHandlerLevels_level_stable (ids : List Nat) (heap : List Handler) (L i : Nat)
    (h : (heap.get? i).map Handler.level = some L) :
    ((setHandlerLevels heap ids L).get? i).map Handler.level = some L := by
  rw [setHandlerLevels_get]
  cases hg : heap.get? i with
  | none => rw [hg] at h; cases h
  | some x =>
    rw [hg] at h
    simp only [Option.map_some', Option.some.injEq] at h
    by_cases hm : i ∈ ids <;> simp [hm, h]

theorem setLoggerLevelByName_heap_length (s : ModuleState) (n : String) (L : Nat) :
    (setLoggerLevelByName s n L).heap.length = s.heap.length := by
  unfold setLoggerLevelByName getLoggerWith
  cases hd : dictGet s.loggerDict n <;> dsimp only <;> rw [setHandlerLevels_length]

theorem setLoggerLevelByName_level_stable (s : ModuleState) (n : String) (L i : Nat)
    (h : (s.heap.get? i).map Handler.level = some L) :
    ((setLoggerLevelByName s n L).heap.get? i).map Handler.level = some L := by
  unfold setLoggerLevelByName getLoggerWith
  cases hd : dictGet s.loggerDict n <;> dsimp only <;>
    exact setHandlerLevels_level_stable _ _ _ _ h

theorem setLoggerLevelByName_sets (s : ModuleState) (n : String) (L i : Nat)
    (o : LoggerObj) (hd : dictGet s.loggerDict n = some o) (hi : i ∈ o.handlers)
    (hlt : i < s.heap.length) :
    ((setLoggerLevelByName s n L).heap.get? i).map Handler.level = some L := by
  unfold setLoggerLevelByName getLoggerWith
  rw [hd]
  dsimp only
  rw [setHandlerLevels_get_mem _ _ _ _ hi]
  cases hg : s.heap.get? i with
  | none => exact absurd (List.get?_eq_none.mp hg) (by omega)
  | some x => rfl

theorem setLoggerLevelByName_dict_level (s : ModuleState) (n : String) (L : Nat) :
    (dictGet (setLoggerLevelByName s n L).loggerDict n).map LoggerObj.level = some L := by
  unfold setLoggerLevelByName getLoggerWith
  cases hd : dictGet s.loggerDict n <;> dsimp only <;> rw [dictGet_dictSet_self] <;> rfl

theorem setLoggerLevelByName_dict_ne (s : ModuleState) (m n : String) (L : Nat)
    (h : m ≠ n) :
    dictGet (setLoggerLevelByName s m L).loggerDict n = dictGet s.loggerDict n := by
  unfold setLoggerLevelByName getLoggerWith
  cases hd : dictGet s.loggerDict m with
  | some o =>
    dsimp only
    rw [dictGet_dictSet_ne _ _ _ _ h]
  | none =>
    dsimp only
    rw [dictGet_dictSet_ne _ _ _ _ h, dictGet_dictSet_ne _ _ _ _ h]

theorem setLoggerLevelByName_dict_stable (s : ModuleState) (m n : String) (L : Nat)
    (h : (dictGet s.loggerDict n).map LoggerObj.level = some L) :
    (dictGet (setLoggerLevelByName s m L).loggerDict n).map LoggerObj.level = some L := by
  by_cases hm : m = n
  · subst hm
    exact setLoggerLevelByName_dict_level s m L
  · rw [setLoggerLevelByName_dict_ne _ _ _ _ hm]
    exact h

theorem setLoggerLevelByName_shared (s : ModuleState) (n : String) (L : Nat) :
    (setLoggerLevelByName s n L).sharedFileHandler = s.sharedFileHandler := by
  unfold setLoggerLevelByName getLoggerWith
  cases hd : dictGet s.loggerDict n <;> rfl

theorem fold_setLevel_stable (names : List String) (s : ModuleState) (L i : Nat)
    (h : (s.heap.get? i).map Handler.level = some L) :
    (((names.foldl (fun a k => setLoggerLevelByName a k L) s)).heap.get? i).map
      Handler.level = some L := by
  induction names generalizing s with
  | nil => exact h
  | cons m rest ih =>
    rw [List.foldl_cons]
    exact ih _ (setLoggerLevelByName_level_stable _ _ _ _ h)

theorem fold_setLevel_establish (names : List String) (s : ModuleState) (L i : Nat)
    (n : String) (o : LoggerObj) (hn : n ∈ names)
    (hd : dictGet s.loggerDict n = some o) (hi : i ∈ o.handlers)
    (hlt : i < s.heap.length) :
    (((names.foldl (fun a k => setLoggerLevelByName a k L) s)).heap.get? i).map
      Handler.level = some L := by
  induction names generalizing s with
  | nil => cases hn
  | cons m rest ih =>
    rw [List.foldl_cons]
    by_cases hm : m = n
    · subst hm
      exact fold_setLevel_stable rest _ L i (setLoggerLevelByName_sets _ _ _ _ _ hd hi hlt)
    · rcases List.mem_cons.mp hn with h1 | h1
      · exact absurd h1.symm hm
      · refine ih _ h1 ?_ ?_
        · rw [setLoggerLevelByName_dict_ne _ _ _ _ hm]
          exact hd
        · rw [setLoggerLevelByName_heap_length]
          exact hlt

theorem fold_setLevel_shared (names : List String) (s : ModuleState) (L : Nat) :
    ((names.foldl (fun a k => setLoggerLevelByName a k L) s)).sharedFileHandler =
      s.sharedFileHandler := by
  induction names generalizing s with
  | nil => rfl
  | cons m rest ih =>
    rw [List.foldl_cons, ih, setLoggerLevelByName_shared]

theorem fold_setLevel_dict_stable (names : List String) (s : ModuleState) (L : Nat)
    (n : String) (h : (dictGet s.loggerDict n).map LoggerObj.level = some L) :
    (dictGet ((names.foldl (fun a k => setLoggerLevelByName a k L) s)).loggerDict n).map
      LoggerObj.level = some L := by
  induction names generalizing s with
  | nil => exact h
  | cons m rest ih =>
    rw [List.foldl_cons]
    exact ih _ (setLoggerLevelByName_dict_stable _ _ _ _ h)

theorem fold_setLevel_dict_establish (names : List String) (s : ModuleState) (L : Nat)
    (n : String) (hn : n ∈ names) :
    (dictGet ((names.foldl (fun a k => setLoggerLevelByName a k L) s)).loggerDict n).map
      LoggerObj.level = some L := by
  induction names generalizing s with
  | nil => cases hn
  | cons m rest ih =>
    rw [List.foldl_cons]
    by_cases hr : n ∈ rest
    · exact ih _ hr
    · have hm : m = n := by
        rcases List.mem_cons.mp hn with h1 | h1
        · exact h1.symm
        · exact absurd h1 hr
      subst hm
      exact fold_setLevel_dict_stable rest _ L m (setLoggerLevelByName_dict_level _ _ _)

theorem fold_cond_setLevel_stable (names : List String) (s : ModuleState) (L i : Nat)
    (h : (s.heap.get? i).map Handler.level = some L) :
    ((names.foldl (fun a k => if k ∈ a.configuredLoggers then a
        else setLoggerLevelByName a k L) s).heap.get? i).map Handler.level = some L := by
  induction names generalizing s with
  | nil => exact h
  | cons m rest ih =>
    rw [List.foldl_cons]
    by_cases hc : m ∈ s.configuredLoggers
    · rw [if_pos hc]
      exact ih _ h
    · rw [if_neg hc]
      exact ih _ (setLoggerLevelByName_level_stable _ _ _ _ h)

theorem fold_cond_setLevel_dict_stable (names : List String) (s : ModuleState) (L : Nat)
    (n : String) (h : (dictGet s.loggerDict n).map LoggerObj.level = some L) :
    (dictGet ((names.foldl (fun a k => if k ∈ a.configuredLoggers then a
        else setLoggerLevelByName a k L) s)).loggerDict n).map LoggerObj.level = some L := by
  induction names generalizing s with
  | nil => exact h
  | cons m rest ih =>
    rw [List.foldl_cons]
    by_cases hc : m ∈ s.configuredLoggers
    · rw [if_pos hc]
      exact ih _ h
    · rw [if_neg hc]
      exact ih _ (setLoggerLevelByName_dict_stable _ _ _ _ h)

theorem fold_cond_setLevel_shared (names : List String) (s : ModuleState) (L : Nat) :
    ((names.foldl (fun a k => if k ∈ a.configuredLoggers then a
        else setLoggerLevelByName a k L) s)).sharedFileHandler = s.sharedFileHandler := by
  induction names generalizing s with
  | nil => rfl
  | cons m rest ih =>
    rw [List.foldl_cons]
    by_cases hc : m ∈ s.configuredLoggers
    · rw [if_pos hc, ih]
    · rw [if_neg hc, ih, setLoggerLevelByName_shared]

/-- C6 counterexample: the shared file handler level is not fixed at DEBUG
for its lifetime. Concrete trace: set the directory (handler created at
level DEBUG), configure a file-saving logger, then set_loggers_level(INFO)
— the same shared handler now has level INFO. -/
theorem shared_file_handler_level_changes :
    ((set_log_directory (initState false) "logs" true).sharedFileHandler = some 0) ∧
    (((set_log_directory (initState false) "logs" true).heap.get? 0).map Handler.level =
      some DEBUG) ∧
    ((set_loggers_level (configure_logger (set_log_directory (initState false) "logs" true)
        true "app" true true true).1 INFO).sharedFileHandler = some 0) ∧
    (((set_loggers_level (configure_logger (set_log_directory (initState false) "logs" true)
        true "app" true true true).1 INFO).heap.get? 0).map Handler.level = some INFO) ∧
    INFO ≠ DEBUG :=
  ⟨rfl, rfl, rfl, rfl, by decide⟩

/-- C6 amended: the shared file handler is created with level DEBUG, but
the level is not fixed for its whole lifetime: set_loggers_level(L) also
resets the level of every handler attached to a configured logger — the
shared file handler included, when it is attached to one — to L, while
leaving it the shared handler. -/
theorem shared_file_handler_created_debug_then_overridden
    (st m : ModuleState) (L : Nat) (n : String) (o : LoggerObj) (i : Nat)
    (hn : n ∈ m.configuredLoggers) (hd : dictGet m.loggerDict n = some o)
    (hi : i ∈ o.handlers) (hlt : i < m.heap.length)
    (hsh : m.sharedFileHandler = some i) :
    (create_shared_file_handler st).level = DEBUG ∧
    (set_loggers_level m L).sharedFileHandler = some i ∧
    ((set_loggers_level m L).heap.get? i).map Handler.level = some L := by
  refine ⟨rfl, ?_, ?_⟩
  · unfold set_loggers_level
    dsimp only
    rw [fold_cond_setLevel_shared, fold_setLevel_shared]
    exact hsh
  · unfold set_loggers_level
    dsimp only
    apply fold_cond_setLevel_stable
    exact fold_setLevel_establish _ _ _ _ _ _ hn hd hi hlt

/-- C6 amended witness: concrete trace through the amended theorem. -/
theorem shared_file_handler_created_debug_then_overridden_witness :
    "app" ∈ (configure_logger (set_log_directory (initState false) "logs" true)
      true "app" true true true).1.configuredLoggers ∧
    ((create_shared_file_handler (initState false)).level = DEBUG ∧
     (set_loggers_level (configure_logger (set_log_directory (initState false) "logs" true)
        true "app" true true true).1 INFO).sharedFileHandler = some 0 ∧
     ((set_loggers_level (configure_logger (set_log_directory (initState false) "logs" true)
        true "app" true true true).1 INFO).heap.get? 0).map Handler.level = some INFO) :=
  ⟨by decide, shared_file_handler_created_debug_then_overridden (initState false)
    (configure_logger (set_log_directory (initState false) "logs" true)
      true "app" true true true).1 INFO "app"
    (configure_logger (set_log_directory (initState false) "logs" true)
      true "app" true true true).2.1
    0 (by decide) (by decide) (by decide) (by decide) (by decide)⟩

theorem log_isSome (v : LevelView) (name : String) (cs : CallSite) (a msg : String)
    (lvl : Nat) (c : Option String) :
    (FXColorLogger.log_ v name cs a lvl msg c).isSome = isEnabledFor v lvl := by
  unfold FXColorLogger.log_
  by_cases h : isEnabledFor v lvl <;> simp [h]

theorem guarded_log_isSome (v : LevelView) (name : String) (cs : CallSite) (a msg : String)
    (lvl : Nat) (c : Option String) :
    (if isEnabledFor v lvl then FXColorLogger.log_ v name cs a lvl msg c
      else none).isSome = isEnabledFor v lvl := by
  by_cases h : isEnabledFor v lvl <;> simp [h, log_isSome]

theorem isEnabledFor_eq (v : LevelView) (lvl : Nat) (hdis : v.disabled = false)
    (hman : v.managerDisable = NOTSET) (hl : 0 < lvl) :
    isEnabledFor v lvl = decide (getEffectiveLevel v ≤ lvl) := by
  unfold isEnabledFor
  rw [hdis, hman]
  simp only [Bool.false_eq_true, if_false, NOTSET]
  rw [if_neg (by omega)]

theorem getEffectiveLevel_setLevel (v : LevelView) (T : Nat) (h : 0 < T) :
    getEffectiveLevel (v.setLevel T) = T := by
  show firstSetLevel (T :: v.ancestorLevels) = T
  simp [firstSetLevel, Nat.pos_iff_ne_zero.mp h]

/-- C3: with the manager in its default state, each of the five leveled
emit operations constructs and dispatches a record iff the effective
threshold T satisfies T ≤ L for the operation level L — when L < T the
result is none, no record is constructed; after set_level(T') the
decision of every subsequent call is taken against T' (already-produced
records are immutable values of the embedding, so past calls are
untouched); and set_loggers_level(L) stores level L on every configured
logger, so their subsequent decisions are taken against L. -/
theorem emit_iff_threshold (v : LevelView) (name : String) (cs : CallSite)
    (a msg : String) (c : Option String)
    (hdis : v.disabled = false) (hman : v.managerDisable = NOTSET) :
    ((FXColorLogger.debug v name cs a msg c).isSome ↔ getEffectiveLevel v ≤ DEBUG) ∧
    ((FXColorLogger.info v name cs a msg c).isSome ↔ getEffectiveLevel v ≤ INFO) ∧
    ((FXColorLogger.warning v name cs a msg c).isSome ↔ getEffectiveLevel v ≤ WARNING) ∧
    ((FXColorLogger.error v name cs a msg c).isSome ↔ getEffectiveLevel v ≤ ERROR) ∧
    ((FXColorLogger.critical v name cs a msg c).isSome ↔ getEffectiveLevel v ≤ CRITICAL) ∧
    (∀ T, 0 < T →
      (((FXColorLogger.debug (v.setLevel T) name cs a msg c).isSome ↔ T ≤ DEBUG) ∧
       ((FXColorLogger.info (v.setLevel T) name cs a msg c).isSome ↔ T ≤ INFO) ∧
       ((FXColorLogger.warning (v.setLevel T) name cs a msg c).isSome ↔ T ≤ WARNING) ∧
       ((FXColorLogger.error (v.setLevel T) name cs a msg c).isSome ↔ T ≤ ERROR) ∧
       ((FXColorLogger.critical (v.setLevel T) name cs a msg c).isSome ↔ T ≤ CRITICAL))) ∧
    (∀ (m : ModuleState) (L : Nat) (k : String), k ∈ m.configuredLoggers →
      (dictGet (set_loggers_level m L).loggerDict k).map LoggerObj.level = some L) := by
  have key : ∀ (w : LevelView), w.disabled = false → w.managerDisable = NOTSET →
      ∀ lvl, 0 < lvl →
      ((if isEnabledFor w lvl then FXColorLogger.log_ w name cs a lvl msg c
          else none).isSome ↔ getEffectiveLevel w ≤ lvl) := by
    intro w h1 h2 lvl hl
    rw [guarded_log_isSome, isEnabledFor_eq w lvl h1 h2 hl]
    simp
  refine ⟨key v hdis hman DEBUG (by decide), key v hdis hman INFO (by decide),
    key v hdis hman WARNING (by decide), key v hdis hman ERROR (by decide),
    key v hdis hman CRITICAL (by decide), ?_, ?_⟩
  · intro T hT
    have h1 : (v.setLevel T).disabled = false := hdis
    have h2 : (v.setLevel T).managerDisable = NOTSET := hman
    have he := getEffectiveLevel_setLevel v T hT
    have k1 := key (v.setLevel T) h1 h2 DEBUG (by decide)
    have k2 := key (v.setLevel T) h1 h2 INFO (by decide)
    have k3 := key (v.setLevel T) h1 h2 WARNING (by decide)
    have k4 := key (v.setLevel T) h1 h2 ERROR (by decide)
    have k5 := key (v.setLevel T) h1 h2 CRITICAL (by decide)
    rw [he] at k1 k2 k3 k4 k5
    exact ⟨k1, k2, k3, k4, k5⟩
  · intro m L k hk
    unfold set_loggers_level
    dsimp only
    apply fold_cond_setLevel_dict_stable
    exact fold_setLevel_dict_establish _ _ _ _ hk

/-- C3 witness: a logger at threshold 20 drops debug and emits info. -/
theorem emit_iff_threshold_witness :
    ({ level := 20, ancestorLevels := [30] } : LevelView).disabled = false ∧
    ({ level := 20, ancestorLevels := [30] } : LevelView).managerDisable = NOTSET ∧
    ¬ (FXColorLogger.debug { level := 20, ancestorLevels := [30] } "n" ⟨"f", "g", 3⟩
        "12:00:00" "m" none).isSome ∧
    (FXColorLogger.info { level := 20, ancestorLevels := [30] } "n" ⟨"f", "g", 3⟩
        "12:00:00" "m" none).isSome := by
  refine ⟨rfl, rfl, ?_, ?_⟩
  · rw [(emit_iff_threshold { level := 20, ancestorLevels := [30] } "n" ⟨"f", "g", 3⟩
        "12:00:00" "m" none rfl rfl).1]
    decide
  · rw [(emit_iff_threshold { level := 20, ancestorLevels := [30] } "n" ⟨"f", "g", 3⟩
        "12:00:00" "m" none rfl rfl).2.1]
    decide

/-! ### Escape-freedom of the no-color formatting path -/

theorem data_append (a b : String) : (a ++ b).data = a.data ++ b.data := rfl

theorem noEsc_append {a b : String} (ha : noEsc a) (hb : noEsc b) : noEsc (a ++ b) := by
  unfold noEsc at *
  intro h
  rw [data_append, List.mem_append] at h
  rcases h with h | h
  · exact ha h
  · exact hb h

theorem noEsc_replicate (k : Nat) (c : Char) (hc : c ≠ escChar) :
    noEsc (String.mk (List.replicate k c)) := by
  intro h
  have h2 : escChar ∈ List.replicate k c := h
  rw [List.mem_replicate] at h2
  exact hc h2.2.symm

theorem noEsc_padAlignRight (w : Nat) (s : String) (h : noEsc s) :
    noEsc (padAlignRight w s) := by
  unfold padAlignRight
  split
  · exact noEsc_append (noEsc_replicate _ _ (by decide)) h
  · exact h

theorem digitChar_ne_esc (d : Nat) : digitChar d ≠ escChar := by
  unfold digitChar escChar
  have h : d % 10 < 10 := Nat.mod_lt _ (by omega)
  generalize hk : d % 10 = k at h ⊢
  interval_cases k <;> decide

theorem natChars_ne_esc (n : Nat) : ∀ ch ∈ natChars n, ch ≠ escChar := by
  induction n using Nat.strong_induction_on with
  | _ n ih =>
    intro ch hch
    rw [natChars] at hch
    by_cases h : n < 10
    · rw [dif_pos h] at hch
      simp only [List.mem_singleton] at hch
      subst hch
      exact digitChar_ne_esc n
    · rw [dif_neg h] at hch
      rw [List.mem_append] at hch
      rcases hch with h1 | h1
      · exact ih (n / 10) (Nat.div_lt_self (by omega) (by omega)) ch h1
      · simp only [List.mem_singleton] at h1
        subst h1
        exact digitChar_ne_esc n

theorem noEsc_natToString (n : Nat) : noEsc (natToString n) := by
  intro h
  exact natChars_ne_esc n escChar h rfl

theorem mkFXFormatter_false (ec es : Bool) :
    (mkFXFormatter false ec es).enable_color = false := by
  unfold mkFXFormatter
  cases ec <;> rfl

/-- C4: when the color-support probe reports false, every exposed color
and style constant is the empty string, and the formatter coerces
enable_color to false whatever was requested, so the formatted output
adds no ANSI escapes: with escape-free record text fields the whole
output string is escape-free, for every formatter configuration. -/
theorem no_ansi_when_unsupported (ec es : Bool) (loggers : List String) (r : LogRecord)
    (hn : noEsc r.name) (hl : noEsc r.levelname) (hf : noEsc r.funcName)
    (ha : noEsc r.asctime) (hm : noEsc r.message) :
    (BLACK false = "" ∧ BLUE false = "" ∧ CYAN false = "" ∧ GREEN false = "" ∧
     MAGENTA false = "" ∧ RED false = "" ∧ WHITE false = "" ∧ YELLOW false = "" ∧
     BRIGHT false = "" ∧ DIM false = "" ∧ RESET_ALL false = "") ∧
    noEsc ((mkFXFormatter false ec es).format loggers r).1 := by
  refine ⟨⟨rfl, rfl, rfl, rfl, rfl, rfl, rfl, rfl, rfl, rfl, rfl⟩, ?_⟩
  unfold FXFormatter.format
  rw [mkFXFormatter_false]
  simp only [Bool.false_eq_true, if_false]
  repeat'
    first
      | exact ha
      | exact hm
      | exact hn
      | exact hf
      | exact noEsc_padAlignRight _ _ hl
      | exact noEsc_natToString _
      | exact noEsc_replicate _ _ (by decide)
      | apply noEsc_append
      | split
      | decide

/-- C4 witness: a concrete record formatted with color requested while
unsupported. -/
theorem no_ansi_when_unsupported_witness :
    noEsc "app" ∧ noEsc "INFO" ∧ noEsc "main" ∧ noEsc "12:00:00" ∧ noEsc "hello" ∧
    noEsc ((mkFXFormatter false true true).format []
      { name := "app", levelno := 20, levelname := "INFO", funcName := "main",
        lineno := 42, asctime := "12:00:00", message := "hello" }).1 :=
  ⟨by decide, by decide, by decide, by decide, by decide,
   (no_ansi_when_unsupported true true []
     { name := "app", levelno := 20, levelname := "INFO", funcName := "main",
       lineno := 42, asctime := "12:00:00", message := "hello" }
     (by decide) (by decide) (by decide) (by decide) (by decide)).2⟩

theorem deleteOldLoop_eq_filter (cutoff : Int) (entries : List FileEntry) :
    deleteOldLoop cutoff entries =
      entries.filter (fun f => !(f.isFile && decide (f.mtime < cutoff))) := by
  induction entries with
  | nil => rfl
  | cons f rest ih =>
    unfold deleteOldLoop
    rw [List.filter_cons]
    cases h : (f.isFile && decide (f.mtime < cutoff)) <;> simp [h, ih]

/-- C8: delete_old_logs fails with a configuration error exactly when the
log directory is unset or missing; otherwise it succeeds, and among the
direct entries of the directory (iterdir is non-recursive, so these are
the only ones inspected) it keeps precisely those that are not a regular
file with modification time strictly before now - days·86400 seconds:
non-file entries and files at or after the cutoff survive, strictly older
regular files are deleted. -/
theorem delete_old_logs_spec (st : ModuleState) (dirExists : Bool)
    (entries : List FileEntry) (now : Int) (days : Nat) :
    ((st.logDirectory = none ∨ dirExists = false) →
      ∃ e, delete_old_logs st dirExists entries now days = .error e) ∧
    (∀ d, st.logDirectory = some d → dirExists = true →
      delete_old_logs st dirExists entries now days =
        .ok (entries.filter
          (fun f => !(f.isFile && decide (f.mtime < now - 86400 * (days : Int))))) ∧
      (∀ f ∈ entries, (f.isFile = false ∨ now - 86400 * (days : Int) ≤ f.mtime) →
        f ∈ entries.filter
          (fun f => !(f.isFile && decide (f.mtime < now - 86400 * (days : Int))))) ∧
      (∀ f ∈ entries, f.isFile = true → f.mtime < now - 86400 * (days : Int) →
        f ∉ entries.filter
          (fun f => !(f.isFile && decide (f.mtime < now - 86400 * (days : Int)))))) := by
  constructor
  · intro h
    unfold delete_old_logs check_log_directory
    rcases h with h | h
    · rw [h]
      exact ⟨_, rfl⟩
    · cases hd : st.logDirectory with
      | none => exact ⟨_, rfl⟩
      | some d =>
        rw [h]
        exact ⟨_, rfl⟩
  · intro d hd hde
    unfold delete_old_logs check_log_directory
    rw [hd, hde]
    simp only [reduceIte]
    refine ⟨by rw [deleteOldLoop_eq_filter], ?_, ?_⟩
    · intro f hf hcond
      rw [List.mem_filter]
      refine ⟨hf, ?_⟩
      rcases hcond with h | h
      · simp [h]
      · have hnot : ¬ (f.mtime < now - 86400 * (days : Int)) := not_lt.mpr h
        simp [hnot]
    · intro f hf h1 h2 hmem
      rw [List.mem_filter] at hmem
      simp [h1, h2] at hmem

/-- C8 witness: with days = 0 on a set, existing directory, the file
strictly older than now is deleted, the newer file and the subdirectory
entry survive; with no directory set the call errors. -/
theorem delete_old_logs_spec_witness :
    (delete_old_logs (set_log_directory (initState false) "logs" false) true
      [⟨"old.log", true, 5⟩, ⟨"new.log", true, 100⟩, ⟨"sub", false, 1⟩] 100 0 =
      .ok [⟨"new.log", true, 100⟩, ⟨"sub", false, 1⟩]) ∧
    (∃ e, delete_old_logs (initState false) true [] 100 0 = .error e) := by
  constructor
  · rw [((delete_old_logs_spec (set_log_directory (initState false) "logs" false) true
      [⟨"old.log", true, 5⟩, ⟨"new.log", true, 100⟩, ⟨"sub", false, 1⟩] 100 0).2
      "logs" rfl rfl).1]
    rfl
  · exact (delete_old_logs_spec (initState false) true [] 100 0).1 (Or.inl rfl)

/-! ### splitext and rotation_filename -/

theorem lastIdxOf_not_mem (c : Char) (l : List Char) (h : c ∉ l) : lastIdxOf c l = none := by
  induction l with
  | nil => rfl
  | cons x xs ih =>
    simp only [List.mem_cons, not_or] at h
    unfold lastIdxOf
    rw [ih h.2, if_neg (fun hxc => h.1 hxc.symm)]

theorem lastIdxOf_append (c : Char) (l1 l2 : List Char) :
    lastIdxOf c (l1 ++ l2) =
      match lastIdxOf c l2 with
      | some i => some (l1.length + i)
      | none => lastIdxOf c l1 := by
  induction l1 with
  | nil => cases h : lastIdxOf c l2 <;> simp [h, lastIdxOf]
  | cons x xs ih =>
    simp only [List.cons_append, lastIdxOf, List.append_eq]
    rw [ih]
    cases h : lastIdxOf c l2 with
    | none => rfl
    | some i =>
      simp only [List.length_cons]
      congr 1
      omega

theorem lastIdxOf_bound (c : Char) (l : List Char) (i : Nat)
    (h : lastIdxOf c l = some i) : i < l.length ∧ l.get? i = some c := by
  induction l generalizing i with
  | nil => cases h
  | cons x xs ih =>
    unfold lastIdxOf at h
    cases h2 : lastIdxOf c xs with
    | some j =>
      rw [h2] at h
      simp only [Option.some.injEq] at h
      subst h
      obtain ⟨hj, hg⟩ := ih j h2
      refine ⟨by simpa using hj, ?_⟩
      simpa using hg
    | none =>
      rw [h2] at h
      by_cases hx : x = c
      · rw [if_pos hx] at h
        simp only [Option.some.injEq] at h
        subst h
        subst hx
        exact ⟨by simp, rfl⟩
      · rw [if_neg hx] at h
        cases h

/-- C9: for a rotated file name of the form base.ext — base nonempty, its
final character neither a dot nor the path separator, and the extension
free of dots and separators — rotation_filename inserts the suffix
between the base name and the extension, producing base.suffix.ext; in
particular the suffix is never appended after the extension. -/
theorem rotation_filename_inserts (b e sfx : List Char) (c : Char)
    (hlast : b.getLast? = some c) (hcdot : c ≠ '.') (hcslash : c ≠ '/')
    (hedot : '.' ∉ e) (heslash : '/' ∉ e) :
    rotation_filename sfx (b ++ '.' :: e) = b ++ '.' :: (sfx ++ '.' :: e) := by
  have hb : b ≠ [] := by
    intro h
    subst h
    cases hlast
  have hblen : 0 < b.length := List.length_pos.mpr hb
  have hgl : b.get? (b.length - 1) = some c := by
    rw [← List.getLast?_eq_get?]
    exact hlast
  -- the last dot of the whole path is the separator dot we inserted
  have hdot_tail : lastIdxOf '.' ('.' :: e) = some 0 := by
    unfold lastIdxOf
    rw [lastIdxOf_not_mem _ _ hedot, if_pos rfl]
  have hdi : lastIdxOf '.' (b ++ '.' :: e) = some b.length := by
    rw [lastIdxOf_append, hdot_tail]
    simp
  -- the last slash, if any, lies inside b, strictly before its final char
  have hslash_tail : lastIdxOf '/' ('.' :: e) = none := by
    unfold lastIdxOf
    rw [lastIdxOf_not_mem _ _ heslash, if_neg (by decide)]
  have hsl : lastIdxOf '/' (b ++ '.' :: e) = lastIdxOf '/' b := by
    rw [lastIdxOf_append, hslash_tail]
  -- the filename index is at most b.length - 1
  have hfi : ∀ fi, (fi = match lastIdxOf '/' (b ++ '.' :: e) with
      | some s => s + 1
      | none => 0) → fi ≤ b.length - 1 := by
    intro fi hfi
    rw [hsl] at hfi
    cases hs : lastIdxOf '/' b with
    | none =>
      rw [hs] at hfi
      dsimp only at hfi
      omega
    | some s =>
      rw [hs] at hfi
      dsimp only at hfi
      obtain ⟨hslen, hsget⟩ := lastIdxOf_bound _ _ _ hs
      have hne : s ≠ b.length - 1 := by
        intro h
        rw [h, hgl] at hsget
        exact hcslash (Option.some.inj hsget)
      subst hfi
      exact Nat.lt_of_le_of_ne (Nat.le_sub_one_of_lt hslen) hne
  -- the scanned slice contains the final character of b, a non-dot
  have hslice : ∀ fi, fi ≤ b.length - 1 →
      (((b ++ '.' :: e).drop fi).take (b.length - fi)).any (fun ch => ch ≠ '.') = true := by
    intro fi hle
    have hfib : fi ≤ b.length := by omega
    rw [List.drop_append_of_le_length hfib]
    have hlen : (b.drop fi).length = b.length - fi := by
      rw [List.length_drop]
    rw [← hlen, List.take_left]
    have hmem : c ∈ b.drop fi := by
      apply List.get?_mem (n := b.length - 1 - fi)
      rw [List.get?_drop]
      have : fi + (b.length - 1 - fi) = b.length - 1 := by omega
      rw [this]
      exact hgl
    exact List.any_eq_true.mpr ⟨c, hmem, by simpa using hcdot⟩
  -- splitext therefore splits exactly at the inserted dot
  have hsplit : splitext (b ++ '.' :: e) = (b, '.' :: e) := by
    unfold splitext
    rw [hsl, hdi]
    cases hs : lastIdxOf '/' b with
    | none =>
      dsimp only
      rw [if_pos (by omega)]
      rw [hslice 0 (by omega)]
      simp only [if_true]
      rw [List.take_left, List.drop_left]
    | some s =>
      have hle := hfi (s + 1) (by rw [hsl, hs])
      dsimp only
      rw [if_pos (le_trans hle (Nat.sub_le _ _))]
      rw [hslice (s + 1) hle]
      simp only [if_true]
      rw [List.take_left, List.drop_left]
  unfold rotation_filename
  rw [hsplit]

/-- C9 witness: rotating 2024_01_01.log with suffix 2025-10-12 yields
2024_01_01.2025-10-12.log, the suffix between base and extension. -/
theorem rotation_filename_inserts_witness :
    ("2024_01_01".data.getLast? = some '1' ∧ ('1' : Char) ≠ '.' ∧ ('1' : Char) ≠ '/' ∧
      '.' ∉ "log".data ∧ '/' ∉ "log".data) ∧
    rotation_filename "2025-10-12".data ("2024_01_01".data ++ '.' :: "log".data) =
      "2024_01_01".data ++ '.' :: ("2025-10-12".data ++ '.' :: "log".data) :=
  ⟨⟨by decide, by decide, by decide, by decide, by decide⟩,
   rotation_filename_inserts "2024_01_01".data "log".data "2025-10-12".data '1'
     (by decide) (by decide) (by decide) (by decide) (by decide)⟩

end Fxlog

